import Mathlib

/-
Verification of the sajari-sdk-go client library's marshalling and batch
operation layer, as a shallow embedding in Lean 4.

Modelling conventions:
* Go `interface{}` values passed to the record/value marshalling layer are
  embedded as the inductive `Sajari.GoVal`.  All Go integer widths
  (int, int8..int64, uint..uint64) format identically under fmt `%v`
  (decimal), so they are collapsed into one constructor carrying `Int`.
  Go float32/float64 values are only ever passed through to the wire after
  `%v` formatting, never computed on; they are modelled exactly as `Rat`
  with a canonical formatted form, since IEEE formatting digits are a
  strconv detail irrelevant to every claim considered here.
* `time.Time` enters the code only through `x.Unix()`, so it is modelled
  by its Unix-seconds integer.
* Fallible Go functions returning `(T, error)` are modelled as
  `Except String T` (the `String` is the error message) or as pairs with
  an `Option` error component when both values are returned.
* Remote procedure calls are modelled by passing the server's response as
  an explicit oracle argument (`Except ItemErr Response`): the claims under
  study are about how the client builds requests and decodes responses,
  not about the server.  Transport-level errors from the RPC layer are
  grpc status errors, never `MultiError` values, hence the `ItemErr` type.
* Go nil pointers (`*Key`, nil slices) are modelled with `Option`.
-/

namespace Sajari

/-- A Go value supplied to the value-marshalling layer (record.go).
`goOther` stands for any Go value of a shape outside the switch cases of
`pbValueFromInterface`, carrying the `%T` type name used in error text. -/
inductive GoVal where
  | goString (s : String)
  | goBool (b : Bool)
  | goInt (n : Int)
  | goFloat (q : Rat)
  | goTime (unixSec : Int)
  | goStringList (xs : List String)
  | goIntList (xs : List Int)
  | goInt64List (xs : List Int)
  | goOther (typeName : String)
  deriving DecidableEq

/-- The `%T` type name of a Go value, as printed in marshalling errors. -/
def GoVal.typeName : GoVal → String
  | .goString _ => ("string")
  | .goBool _ => ("bool")
  | .goInt _ => ("int")
  | .goFloat _ => ("float64")
  | .goTime _ => ("time.Time")
  | .goStringList _ => ("[]string")
  | .goIntList _ => ("[]int")
  | .goInt64List _ => ("[]int64")
  | .goOther t => t

/-- Formatting of a scalar Go value under fmt `%v` (record.go uses
`fmt.Sprintf` with `%v` for every scalar). -/
def GoVal.format : GoVal → String
  | .goString s => s
  | .goBool b => if b then ("true") else ("false")
  | .goInt n => toString n
  | .goFloat q => toString q
  | .goTime unixSec => toString unixSec
  | .goStringList _ => ("")
  | .goIntList _ => ("")
  | .goInt64List _ => ("")
  | .goOther _ => ("")

/-- Wire value (`enginepb.Value`): either a single string or a repeated
list of strings. -/
inductive PbValue where
  | single (s : String)
  | repeated (vs : List String)
  deriving DecidableEq

/-- Embedding of `pbSingleValue` (record.go): only plain scalars are
accepted (notably excluding `time.Time` and all slices). -/
def pbSingleValue (x : GoVal) : Except String PbValue :=
  match x with
  | .goString s => .ok (.single s)
  | .goBool b => .ok (.single (GoVal.format (.goBool b)))
  | .goInt n => .ok (.single (GoVal.format (.goInt n)))
  | .goFloat q => .ok (.single (GoVal.format (.goFloat q)))
  | x => .error (("expected single value, got ") ++ x.typeName)

/-- Embedding of `pbValueFromInterface` (record.go): scalars become
string-encoded singles (a `time.Time` via its Unix seconds), homogeneous
lists become repeated string lists, anything else is a type error. -/
def pbValueFromInterface (x : GoVal) : Except String PbValue :=
  match x with
  | .goString s => .ok (.single s)
  | .goBool b => .ok (.single (GoVal.format (.goBool b)))
  | .goInt n => .ok (.single (GoVal.format (.goInt n)))
  | .goFloat q => .ok (.single (GoVal.format (.goFloat q)))
  | .goTime u => .ok (.single (toString u))
  | .goStringList xs => .ok (.repeated xs)
  | .goIntList xs => .ok (.repeated (xs.map (fun v => toString v)))
  | .goInt64List xs => .ok (.repeated (xs.map (fun v => toString v)))
  | x => .error (("unsupported value: ") ++ x.typeName)

/-- Embedding of `valueFromProto` (record.go): a wire value decodes to a
string or a list of strings; a nil/unknown wire value is an error. -/
def valueFromProto (v : Option PbValue) : Except String GoVal :=
  match v with
  | some (.single s) => .ok (.goString s)
  | some (.repeated vs) => .ok (.goStringList vs)
  | none => .error ("unexpected type: <nil>")

/-- A record (record.go `Record`): a Go map from field names to values,
embedded as an association list whose lookup takes the first match. -/
abbrev Rec := List (String × GoVal)

/-- A wire record (`pb.Record`): a map from field names to wire values,
where an entry's value pointer may be nil. -/
abbrev PbRec := List (String × Option PbValue)

/-- Name of the reserved body field (record.go `BodyField`). -/
def BodyField : String := "_body"

/-- Go map indexing `m[k]`: the value at the first binding of `k`. -/
def mapGet : Rec → String → Option GoVal
  | [], _ => none
  | p :: rest, k => if p.1 = k then some p.2 else mapGet rest k

/-- Go map assignment `m[k] = v`: replaces the first binding of `k`, or
appends a new binding. -/
def mapSet : Rec → String → GoVal → Rec
  | [], k, v => [(k, v)]
  | p :: rest, k, v =>
    if p.1 = k then (k, v) :: rest else p :: mapSet rest k v

/-- Embedding of `NewRecord` (record.go): copy the given values, then set
the reserved `_body` field to the body string. -/
def NewRecord (body : String) (values : Rec) : Rec :=
  mapSet values BodyField (.goString body)

/-- A record key (record.go `Key`): a field name plus a value. -/
structure Key where
  field : String
  value : GoVal
  deriving DecidableEq

/-- Wire key (`enginepb.Key`). -/
structure PbKey where
  field : String
  value : Option PbValue
  deriving DecidableEq

/-- Embedding of `(*Key).proto` (record.go): a nil key is an error, and
the key value must be a plain scalar. -/
def keyProto (k : Option Key) : Except String PbKey :=
  match k with
  | none => .error ("empty key")
  | some k =>
    match pbSingleValue k.value with
    | .error msg => .error (("error marshalling key value: ") ++ msg)
    | .ok v => .ok ⟨k.field, some v⟩

/-- Embedding of `keys.proto` (record.go): marshal each key in order,
aborting on the first failure. -/
def keysProto : List (Option Key) → Except String (List PbKey)
  | [] => .ok []
  | k :: ks =>
    match keyProto k with
    | .error msg => .error msg
    | .ok pbk =>
      match keysProto ks with
      | .error msg => .error msg
      | .ok pbks => .ok (pbk :: pbks)

/-- Embedding of `keyFromProto` (record.go): an all-empty wire key decodes
to a nil key; otherwise the wire value is decoded. -/
def keyFromProto (k : PbKey) : Except String (Option Key) :=
  if k.field = "" ∧ k.value = none then .ok none
  else
    match valueFromProto k.value with
    | .error msg => .error msg
    | .ok v => .ok (some ⟨k.field, v⟩)

/-- Embedding of `pbKeys.keys` (record.go). -/
def pbKeysToKeys : List PbKey → Except String (List (Option Key))
  | [] => .ok []
  | k :: ks =>
    match keyFromProto k with
    | .error msg => .error msg
    | .ok key =>
      match pbKeysToKeys ks with
      | .error msg => .error msg
      | .ok keys => .ok (key :: keys)

/-- Embedding of `Record.proto` / `protoValues.proto` (record.go):
marshal every field value, aborting on the first failure. -/
def recordProto : Rec → Except String PbRec
  | [] => .ok []
  | (k, v) :: rest =>
    match pbValueFromInterface v with
    | .error msg => .error msg
    | .ok vv =>
      match recordProto rest with
      | .error msg => .error msg
      | .ok d => .ok ((k, some vv) :: d)

/-- Embedding of `records.proto` (record.go). -/
def recordsProto : List Rec → Except String (List PbRec)
  | [] => .ok []
  | r :: rs =>
    match recordProto r with
    | .error msg => .error msg
    | .ok pbr =>
      match recordsProto rs with
      | .error msg => .error msg
      | .ok pbrs => .ok (pbr :: pbrs)

/-- Embedding of `recordFromProto` (record.go). -/
def recordFromProto : PbRec → Except String Rec
  | [] => .ok []
  | (k, v) :: rest =>
    match valueFromProto v with
    | .error msg => .error msg
    | .ok vv =>
      match recordFromProto rest with
      | .error msg => .error msg
      | .ok d => .ok ((k, vv) :: d)

/-- Embedding of `pbRecords.records` (record.go). -/
def pbRecordsToRecords : List PbRec → Except String (List Rec)
  | [] => .ok []
  | r :: rs =>
    match recordFromProto r with
    | .error msg => .error msg
    | .ok d =>
      match pbRecordsToRecords rs with
      | .error msg => .error msg
      | .ok ds => .ok (d :: ds)

/-- Per-item status of a batch response (`rpcpb.Status`): a grpc code
(OK = 0, NotFound = 5) and a message. -/
structure Status where
  code : Nat
  message : String
  deriving DecidableEq

/-- An error attached to one item of a batch response: either
`ErrNoSuchRecord` or a wrapped grpc error (`grpc.Errorf`). -/
inductive ItemErr where
  | noSuchRecord
  | grpc (code : Nat) (msg : String)
  deriving DecidableEq

/-- The `Error()` message of an item error.  `ErrNoSuchRecord` is
`errors.New("sajari: no such record")`; grpc errors are formatted by the
external grpc library from the code and description. -/
def ItemErr.message : ItemErr → String
  | .noSuchRecord => ("sajari: no such record")
  | .grpc c m => ("rpc error: code = ") ++ toString c ++ (" desc = ") ++ m

/-- A `MultiError` (record.go): one optional error per batch item. -/
abbrev MultiError := List (Option ItemErr)

/-- A Go `error` value as returned by the client operations: a plain
message (local validation / fmt.Errorf), a transport or item error, or a
`MultiError`. -/
inductive SajErr where
  | simple (msg : String)
  | item (e : ItemErr)
  | multi (es : MultiError)
  deriving DecidableEq

/-- Embedding of `MultiError.Error` (record.go): count the non-nil
errors, remember the first one's message, then format. -/
def MultiError.Error (me : MultiError) : String :=
  let errs := me.filterMap (fun e => e)
  let msg := match errs with
    | [] => ("")
    | e :: _ => e.message
  match errs.length with
  | 0 => ("(0 errors)")
  | 1 => msg
  | 2 => msg ++ (" (and 1 other error)")
  | n => msg ++ (" (and ") ++ toString n ++ (" other errors)")

/-- The per-status error of `multiErrorFromRecordStatusProto` (record.go):
OK yields no error, NotFound yields `ErrNoSuchRecord`, anything else is
wrapped as a grpc error. -/
def statusErr (s : Status) : Option ItemErr :=
  if s.code = 0 then none
  else if s.code = 5 then some .noSuchRecord
  else some (.grpc s.code s.message)

/-- Embedding of `multiErrorFromRecordStatusProto` (record.go): build the
positional error list; if every status was OK return nil, else the
`MultiError`. -/
def multiErrorFromRecordStatusProto (sts : List Status) : Option SajErr :=
  if (sts.map statusErr).all (fun e => e.isNone) then none
  else some (.multi (sts.map statusErr))

/-- Response of the store Add RPC (`pb.Keys` with statuses). -/
structure AddResponse where
  keys : List PbKey
  status : List Status
  deriving DecidableEq

/-- Response of the store Get RPC (`pb.Records` with statuses). -/
structure GetResponse where
  records : List PbRec
  status : List Status
  deriving DecidableEq

/-- Embedding of `Client.AddMulti` (record.go).  The remote call is an
oracle: its outcome (transport error, or keys plus per-item statuses) is
the `resp` argument.  Transform plumbing only shapes the outgoing request
consumed by the oracle and is omitted.  Returns the Go pair
`([]*Key, error)`, the slice being nil (`none`) exactly where the source
returns nil. -/
def Client.AddMulti (rs : List Rec) (resp : Except ItemErr AddResponse) :
    Option (List (Option Key)) × Option SajErr :=
  match recordsProto rs with
  | .error msg => (none, some (.simple msg))
  | .ok _ =>
    match resp with
    | .error e => (none, some (.item e))
    | .ok r =>
      match pbKeysToKeys r.keys with
      | .error msg => (none, some (.simple msg))
      | .ok ks => (some ks, multiErrorFromRecordStatusProto r.status)

/-- Embedding of `Client.GetMulti` (record.go). -/
def Client.GetMulti (ks : List (Option Key)) (resp : Except ItemErr GetResponse) :
    Option (List Rec) × Option SajErr :=
  match keysProto ks with
  | .error msg => (none, some (.simple msg))
  | .ok _ =>
    match resp with
    | .error e => (none, some (.item e))
    | .ok r =>
      match pbRecordsToRecords r.records with
      | .error msg => (none, some (.simple msg))
      | .ok docs => (some docs, multiErrorFromRecordStatusProto r.status)

/-- Embedding of `Client.DeleteMulti` (record.go): returns only an error. -/
def Client.DeleteMulti (ks : List (Option Key)) (resp : Except ItemErr (List Status)) :
    Option SajErr :=
  match keysProto ks with
  | .error msg => some (.simple msg)
  | .ok _ =>
    match resp with
    | .error e => some (.item e)
    | .ok sts => multiErrorFromRecordStatusProto sts

/-- The status loop of `Client.ExistsMulti` (record.go): OK appends true,
NotFound appends false, anything else records an error and clears the
`empty` flag without appending a result. -/
def existsLoop : List Status → List Bool × MultiError × Bool
  | [] => ([], [], true)
  | s :: rest =>
    let r := existsLoop rest
    if s.code = 0 then (true :: r.1, none :: r.2.1, r.2.2)
    else if s.code = 5 then (false :: r.1, none :: r.2.1, r.2.2)
    else (r.1, some (.grpc s.code s.message) :: r.2.1, false)

/-- Embedding of `Client.ExistsMulti` (record.go): when any status is
neither OK nor NotFound the result slice is discarded (the source returns
`nil, MultiError(errs)`). -/
def Client.ExistsMulti (ks : List (Option Key)) (resp : Except ItemErr (List Status)) :
    Option (List Bool) × Option SajErr :=
  match keysProto ks with
  | .error msg => (none, some (.simple msg))
  | .ok _ =>
    match resp with
    | .error e => (none, some (.item e))
    | .ok sts =>
      let r := existsLoop sts
      if r.2.2 then (some r.1, none) else (none, some (.multi r.2.1))

/-- Embedding of `Client.Add` (record.go): call AddMulti on the singleton
batch; on a MultiError return its index-0 entry, on success return the
first key.  Go's `ks[0]` panics on an empty slice; the model totalises it
with `getD` and the theorems stay inside the defined region. -/
def Client.Add (r : Rec) (resp : Except ItemErr AddResponse) :
    Option Key × Option SajErr :=
  match Client.AddMulti [r] resp with
  | (_, some (.multi es)) => (none, (es.getD 0 none).map .item)
  | (_, some e) => (none, some e)
  | (ks, none) => ((ks.getD []).getD 0 none, none)

/-- Embedding of `Client.Get` (record.go). -/
def Client.Get (k : Option Key) (resp : Except ItemErr GetResponse) :
    Option Rec × Option SajErr :=
  match Client.GetMulti [k] resp with
  | (_, some (.multi es)) => (none, (es.getD 0 none).map .item)
  | (_, some e) => (none, some e)
  | (docs, none) => (some ((docs.getD []).getD 0 []), none)

/-- Embedding of `Client.Exists` (record.go). -/
def Client.Exists (k : Option Key) (resp : Except ItemErr (List Status)) :
    Bool × Option SajErr :=
  match Client.ExistsMulti [k] resp with
  | (_, some (.multi es)) => (false, (es.getD 0 none).map .item)
  | (_, some e) => (false, some e)
  | (bs, none) => ((bs.getD []).getD 0 false, none)

/-- Embedding of `Client.Delete` (record.go). -/
def Client.Delete (k : Option Key) (resp : Except ItemErr (List Status)) :
    Option SajErr :=
  match Client.DeleteMulti [k] resp with
  | some (.multi es) => (es.getD 0 none).map .item
  | e => e

/-- Remote calls a learn operation can issue, in order. -/
inductive RemoteCall where
  | analyse
  | increment
  deriving DecidableEq

/-- The cutset of `strings.TrimRight` in `FieldFilter` (part_008). -/
def filterCutset : List Char := [' ', '<', '>', '=', '!', '~', '^', '$']

/-- Go `strings.TrimRight(s, " <>=!~^$")`: drop the longest trailing run
of cutset characters. -/
def trimRightCutset (s : String) : String :=
  String.mk ((s.data.reverse.dropWhile (fun c => c ∈ filterCutset)).reverse)

/-- Go `strings.TrimSpace`: drop whitespace from both ends. -/
def trimSpace (s : String) : String :=
  String.mk (((s.data.dropWhile Char.isWhitespace).reverse.dropWhile
    Char.isWhitespace).reverse)

/-- A filter value (part_008): field comparison, combinator over
sub-filters (operator is the Go `combFilterOp` int enum), or geo radius
(region is the Go `GeoFilterRegion` int enum). -/
inductive GFilter where
  | fieldF (op : String) (field : String) (value : GoVal)
  | comb (op : Int) (filters : List GFilter)
  | geo (fieldLat fieldLng : String) (lat lng radius : Rat) (region : Int)

/-- Embedding of `FieldFilter` (part_008): the field is the argument with
trailing operator characters trimmed, the operator is the space-trimmed
remainder. -/
def FieldFilter (fieldOp : String) (value : GoVal) : GFilter :=
  let field := trimRightCutset fieldOp
  GFilter.fieldF (trimSpace (String.mk (fieldOp.data.drop field.data.length)))
    field value

/-- Wire field-filter operator (`pb.Filter_Field_Operator`).  Constructor
names follow the proto enum: eqOp ~ EQUAL_TO, neOp ~ NOT_EQUAL_TO,
gtOp ~ GREATER_THAN, geOp ~ GREATER_THAN_OR_EQUAL_TO, ltOp ~ LESS_THAN,
leOp ~ LESS_THAN_OR_EQUAL_TO, containsOp ~ CONTAINS,
notContainsOp ~ DOES_NOT_CONTAIN, hasPrefixOp ~ HAS_PREFIX,
hasSuffixOp ~ HAS_SUFFIX. -/
inductive FieldOperator where
  | eqOp
  | neOp
  | gtOp
  | geOp
  | ltOp
  | leOp
  | containsOp
  | notContainsOp
  | hasPrefixOp
  | hasSuffixOp
  deriving DecidableEq

/-- Wire combinator operator (`pb.Filter_Combinator_Operator`). -/
inductive CombOperator where
  | ALL
  | ANY
  | ONE
  | NONE
  deriving DecidableEq

/-- Wire geo region (`pb.Filter_Geo_Region`). -/
inductive GeoRegion where
  | INSIDE
  | OUTSIDE
  deriving DecidableEq

/-- The operator switch of `fieldFilter.proto` (part_008), rendered as
the equivalent chain of string comparisons. -/
def fieldOpProto (op : String) : Except String FieldOperator :=
  if op = "=" then .ok .eqOp
  else if op = "!=" then .ok .neOp
  else if op = ">" then .ok .gtOp
  else if op = ">=" then .ok .geOp
  else if op = "<" then .ok .ltOp
  else if op = "<=" then .ok .leOp
  else if op = "~" then .ok .containsOp
  else if op = "!~" then .ok .notContainsOp
  else if op = "^" then .ok .hasPrefixOp
  else if op = "$" then .ok .hasSuffixOp
  else .error (("invalid field filter operator: ") ++ op)

/-- The operator switch of `combFilter.proto` (part_008); the Go enum
values are All = 0, Any = 1, One = 2, None = 3. -/
def combOpProto (op : Int) : Except String CombOperator :=
  if op = 0 then .ok .ALL
  else if op = 1 then .ok .ANY
  else if op = 2 then .ok .ONE
  else if op = 3 then .ok .NONE
  else .error (("invalid combinator operator: ") ++ toString op)

/-- The region switch of `geoFilter.proto` (part_008).  The source wraps
the region value in single quotes in the message. -/
def geoRegionProto (r : Int) : Except String GeoRegion :=
  if r = 0 then .ok .INSIDE
  else if r = 1 then .ok .OUTSIDE
  else .error (("geo filter: invalid region ") ++ toString r)

/-- Wire filter message (`pb.Filter`), a tree mirroring the source
oneof: field comparison, combinator with children, or geo. -/
inductive PbFilter where
  | fieldF (field : String) (op : FieldOperator) (value : PbValue)
  | combinator (op : CombOperator) (filters : List PbFilter)
  | geo (fieldLat fieldLng : String) (lat lng radius : Rat) (region : GeoRegion)

mutual

/-- Embedding of the `proto()` methods of `fieldFilter`, `combFilter` and
`geoFilter` (part_008), in source order: operator/enum first, then the
value or the children. -/
def protoFilter : GFilter → Except String PbFilter
  | .fieldF op field v =>
    match fieldOpProto op with
    | .error msg => .error msg
    | .ok pop =>
      match pbValueFromInterface v with
      | .error msg => .error (("error marshalling value: ") ++ msg)
      | .ok pv => .ok (.fieldF field pop pv)
  | .comb op fs =>
    match combOpProto op with
    | .error msg => .error msg
    | .ok pop =>
      match protoFilterList fs with
      | .error msg => .error msg
      | .ok pfs => .ok (.combinator pop pfs)
  | .geo fieldLat fieldLng lat lng radius region =>
    match geoRegionProto region with
    | .error msg => .error msg
    | .ok preg => .ok (.geo fieldLat fieldLng lat lng radius preg)

/-- The child loop of `combFilter.proto` (part_008): serialize children
in order, aborting on the first failure. -/
def protoFilterList : List GFilter → Except String (List PbFilter)
  | [] => .ok []
  | f :: fs =>
    match protoFilter f with
    | .error msg => .error msg
    | .ok pf =>
      match protoFilterList fs with
      | .error msg => .error msg
      | .ok pfs => .ok (pf :: pfs)

end

/-- Go enum constant `combFilterOpAll`. -/
def combFilterOpAll : Int := 0

/-- Go enum constant `combFilterOpAny`. -/
def combFilterOpAny : Int := 1

/-- Go enum constant `combFilterOpOne`. -/
def combFilterOpOne : Int := 2

/-- Go enum constant `combFilterOpNone`. -/
def combFilterOpNone : Int := 3

/-- Embedding of `newCombFilter` (part_008). -/
def newCombFilter (op : Int) (filters : List GFilter) : GFilter :=
  GFilter.comb op filters

/-- Embedding of `AllFilters` (part_008). -/
def AllFilters (filters : List GFilter) : GFilter :=
  newCombFilter combFilterOpAll filters

/-- Embedding of `AnyFilter` (part_008). -/
def AnyFilter (filters : List GFilter) : GFilter :=
  newCombFilter combFilterOpAny filters

/-- Embedding of `OneOfFilters` (part_008). -/
def OneOfFilters (filters : List GFilter) : GFilter :=
  newCombFilter combFilterOpOne filters

/-- Embedding of `NoneOfFilters` (part_008). -/
def NoneOfFilters (filters : List GFilter) : GFilter :=
  newCombFilter combFilterOpNone filters

/-- Go enum constant `GeoFilterInside`. -/
def GeoFilterInside : Int := 0

/-- Go enum constant `GeoFilterOutside`. -/
def GeoFilterOutside : Int := 1

/-- Embedding of `GeoFilter` (part_008). -/
def GeoFilter (fieldLat fieldLng : String) (lat lng radius : Rat)
    (region : Int) : GFilter :=
  GFilter.geo fieldLat fieldLng lat lng radius region

/-- Tracking type (search.go): a string enum. -/
abbrev TrackingType := String

/-- Tracking constant: no tracking. -/
def TrackingNone : TrackingType := ""

/-- Tracking constant: click tracking. -/
def TrackingClick : TrackingType := "CLICK"

/-- Tracking constant: positive/negative interaction tracking. -/
def TrackingPosNeg : TrackingType := "POS_NEG"

/-- Wire tracking type (`pb.SearchRequest_Tracking_Type`). -/
inductive PbTrackingType where
  | NONE
  | CLICK
  | POS_NEG
  deriving DecidableEq

/-- Embedding of `TrackingType.proto` (search.go): unknown strings are an
error (the Go function also returns the NONE enum value alongside the
error, which the `Except` model drops). -/
def trackingTypeProto (t : TrackingType) : Except String PbTrackingType :=
  if t = TrackingNone then .ok .NONE
  else if t = TrackingClick then .ok .CLICK
  else if t = TrackingPosNeg then .ok .POS_NEG
  else .error (("unknown TrackingType: ") ++ t)

/-- Wire sort order (`querypb.Sort_Order`); the zero value is ASC. -/
inductive SortOrder where
  | ASC
  | DESC
  deriving DecidableEq

/-- Wire sort message (`querypb.Sort`) for a field sort. -/
structure PbSort where
  field : String
  order : SortOrder
  deriving DecidableEq

/-- Embedding of `SortByField.proto` (search.go): a leading "-" selects
descending order and is stripped from the field name; never fails. -/
def sortByFieldProto (s : String) : Except String PbSort :=
  if s.startsWith ("-") then .ok ⟨s.drop 1, .DESC⟩
  else .ok ⟨s, .ASC⟩

/-- Wire metric aggregate type (`pb.Aggregate_Metric_Type`). -/
inductive PbMetricType where
  | AVG
  | MIN
  | MAX
  | SUM
  deriving DecidableEq

/-- An aggregate value (part_002): count-distinct, buckets of named
filters, or a numeric metric. -/
inductive GAggregate where
  | count (field : String)
  | bucket (buckets : List (String × GFilter))
  | metric (field : String) (ty : PbMetricType)

/-- Wire aggregate message (`pb.Aggregate`). -/
inductive PbAggregate where
  | count (field : String)
  | bucket (buckets : List (String × PbFilter))
  | metric (field : String) (ty : PbMetricType)

/-- Embedding of `CountAggregate` (part_002). -/
def CountAggregate (field : String) : GAggregate := .count field

/-- Embedding of `BucketAggregate` (part_002); a bucket is a name plus a
filter. -/
def BucketAggregate (buckets : List (String × GFilter)) : GAggregate :=
  .bucket buckets

/-- Embedding of `MaxAggregate` (part_002). -/
def MaxAggregate (field : String) : GAggregate := .metric field .MAX

/-- Embedding of `MinAggregate` (part_002). -/
def MinAggregate (field : String) : GAggregate := .metric field .MIN

/-- Embedding of `AvgAggregate` (part_002). -/
def AvgAggregate (field : String) : GAggregate := .metric field .AVG

/-- Embedding of `SumAggregate` (part_002). -/
def SumAggregate (field : String) : GAggregate := .metric field .SUM

/-- The bucket loop of `bucketAggregate.proto` (part_002): each bucket's
filter is serialized, aborting on the first failure. -/
def bucketsProto : List (String × GFilter) → Except String (List (String × PbFilter))
  | [] => .ok []
  | (name, f) :: bs =>
    match protoFilter f with
    | .error msg => .error msg
    | .ok pf =>
      match bucketsProto bs with
      | .error msg => .error msg
      | .ok pbs => .ok ((name, pf) :: pbs)

/-- Embedding of the aggregate `proto()` methods (part_002): count and
metric aggregates never fail; bucket aggregates fail only through their
filters. -/
def aggregateProto : GAggregate → Except String PbAggregate
  | .count field => .ok (.count field)
  | .bucket bs =>
    match bucketsProto bs with
    | .error msg => .error msg
    | .ok pbs => .ok (.bucket pbs)
  | .metric field ty => .ok (.metric field ty)

/-- A field boost value (part_004): filter-based, interval
(piecewise-linear points), element overlap, or bag-of-words text. -/
inductive FieldBoostV where
  | filterB (filter : GFilter) (value : Rat)
  | interval (field : String) (points : List (Rat × Rat))
  | element (field : String) (elts : List String)
  | text (field : String) (text : String)

/-- Wire field boost message (`pb.FieldBoost`). -/
inductive PbFieldBoost where
  | filterB (filter : PbFilter) (value : Rat)
  | interval (field : String) (points : List (Rat × Rat))
  | element (field : String) (elts : List String)
  | text (field : String) (text : String)

/-- Embedding of `FilterFieldBoost` (part_004). -/
def FilterFieldBoost (f : GFilter) (value : Rat) : FieldBoostV :=
  .filterB f value

/-- Embedding of `IntervalFieldBoost` (part_004); a point is a
(field value, boost value) pair. -/
def IntervalFieldBoost (field : String) (values : List (Rat × Rat)) :
    FieldBoostV :=
  .interval field values

/-- Embedding of `ElementFieldBoost` (part_004). -/
def ElementFieldBoost (field : String) (elts : List String) : FieldBoostV :=
  .element field elts

/-- Embedding of `TextFieldBoost` (part_004). -/
def TextFieldBoost (field : String) (text : String) : FieldBoostV :=
  .text field text

/-- Embedding of the field boost `proto()` methods (part_004): interval,
element and text boosts never fail; a filter boost fails only through its
filter.  The interval point list is carried verbatim (`pointValues.proto`
copies the points in order), not precomputed. -/
def fieldBoostProto : FieldBoostV → Except String PbFieldBoost
  | .filterB f value =>
    match protoFilter f with
    | .error msg => .error msg
    | .ok pf => .ok (.filterB pf value)
  | .interval field points => .ok (.interval field points)
  | .element field elts => .ok (.element field elts)
  | .text field text => .ok (.text field text)

/-- Embedding of `FeatureFieldBoost` (part_004). -/
structure FeatureFieldBoost where
  boost : FieldBoostV
  value : Rat

/-- Wire feature field boost (`pb.SearchRequest_FeatureQuery_FieldBoost`). -/
structure PbFeatureFieldBoost where
  fieldBoost : PbFieldBoost
  value : Rat

/-- Embedding of `NewFeatureFieldBoost` (part_004). -/
def NewFeatureFieldBoost (b : FieldBoostV) (value : Rat) : FeatureFieldBoost :=
  ⟨b, value⟩

/-- Embedding of `FeatureFieldBoost.proto` (part_004). -/
def featureFieldBoostProto (b : FeatureFieldBoost) :
    Except String PbFeatureFieldBoost :=
  match fieldBoostProto b.boost with
  | .error msg => .error msg
  | .ok pb => .ok ⟨pb, b.value⟩

/-- An instance boost value (part_007). -/
inductive InstanceBoostV where
  | fieldIB (field : String) (value : Rat)
  | scoreIB (minCount : Int) (threshold : Rat)

/-- Wire instance boost message (`pb.InstanceBoost`); minCount is the Go
`uint32(minCount)` conversion, which wraps modulo 2^32. -/
inductive PbInstanceBoost where
  | fieldIB (field : String) (value : Rat)
  | scoreIB (minCount : Nat) (threshold : Rat)

/-- Embedding of `FieldInstanceBoost` (part_007). -/
def FieldInstanceBoost (field : String) (value : Rat) : InstanceBoostV :=
  .fieldIB field value

/-- Embedding of `ScoreInstanceBoost` (part_007). -/
def ScoreInstanceBoost (minCount : Int) (threshold : Rat) : InstanceBoostV :=
  .scoreIB minCount threshold

/-- Embedding of the instance boost `proto()` methods (part_007): both
variants always succeed. -/
def instanceBoostProto : InstanceBoostV → Except String PbInstanceBoost
  | .fieldIB field value => .ok (.fieldIB field value)
  | .scoreIB minCount threshold =>
    .ok (.scoreIB ((minCount % 4294967296).toNat) threshold)

/-- The ten operator strings accepted by `fieldFilter.proto`. -/
def validFieldOps : List String :=
  ["=", "!=", ">", ">=", "<", "<=", "~", "!~", "^", "$"]

/-- A Go value is supported by `pbValueFromInterface` unless it falls to
the default case. -/
def supportedVal : GoVal → Bool
  | .goOther _ => false
  | _ => true

mutual

/-- Validity of a filter's constructor inputs: a known operator string
and a supported value for field filters, a known enum for combinators
(0..3) and geo regions (0..1), recursively on children. -/
def filterValid : GFilter → Bool
  | .fieldF op _ v => decide (op ∈ validFieldOps) && supportedVal v
  | .comb op fs => (op = 0 || op = 1 || op = 2 || op = 3) && filterListValid fs
  | .geo _ _ _ _ _ region => region = 0 || region = 1

/-- Validity of a list of filters. -/
def filterListValid : List GFilter → Bool
  | [] => true
  | f :: fs => filterValid f && filterListValid fs

end

/-- Validity of an aggregate's constructor inputs. -/
def aggregateValid : GAggregate → Bool
  | .count _ => true
  | .bucket bs => bs.all (fun b => filterValid b.2)
  | .metric _ _ => true

/-- Validity of a field boost's constructor inputs. -/
def fieldBoostValid : FieldBoostV → Bool
  | .filterB f _ => filterValid f
  | _ => true

/-- Go `int32(n)` conversion: two's-complement truncation to 32 bits. -/
def toInt32 (n : Int) : Int :=
  (n + 2147483648) % 4294967296 - 2147483648

/-- Weighted free text (search.go `Body`). -/
structure Body where
  text : String
  weight : Rat
  deriving DecidableEq

/-- Wire body message (`querypb.Body`). -/
structure PbBody where
  text : String
  weight : Rat
  deriving DecidableEq

/-- Embedding of `Body.proto` (search.go); never fails. -/
def Body.proto (w : Body) : PbBody :=
  ⟨w.text, w.weight⟩

/-- A scored term (search.go `Term`).  Pos, Neg, WOff and POff are uint16
in Go, carried as Nat; the `uint32(x)` conversions in `Term.proto` are
exact on that range. -/
structure Term where
  value : String
  field : String
  pos : Nat
  neg : Nat
  weight : Rat
  wOff : Nat
  pOff : Nat
  deriving DecidableEq

/-- Wire term message (`querypb.Term`). -/
structure PbTerm where
  value : String
  field : String
  pos : Nat
  neg : Nat
  weight : Rat
  wordOffset : Nat
  paraOffset : Nat
  deriving DecidableEq

/-- Embedding of `Term.proto` (search.go); never fails. -/
def Term.proto (t : Term) : PbTerm :=
  ⟨t.value, t.field, t.pos, t.neg, t.weight, t.wOff, t.pOff⟩

/-- The loop of `fieldBoosts.proto` (part_004): marshal each boost in
order, aborting on the first failure. -/
def fieldBoostsProto : List FieldBoostV → Except String (List PbFieldBoost)
  | [] => .ok []
  | b :: bs =>
    match fieldBoostProto b with
    | .error msg => .error msg
    | .ok pb =>
      match fieldBoostsProto bs with
      | .error msg => .error msg
      | .ok pbs => .ok (pb :: pbs)

/-- The loop of `instanceBoosts.proto` (part_007). -/
def instanceBoostsProto : List InstanceBoostV → Except String (List PbInstanceBoost)
  | [] => .ok []
  | b :: bs =>
    match instanceBoostProto b with
    | .error msg => .error msg
    | .ok pb =>
      match instanceBoostsProto bs with
      | .error msg => .error msg
      | .ok pbs => .ok (pb :: pbs)

/-- The loop of `featureFieldBoosts.proto` (part_004). -/
def featureFieldBoostsProto :
    List FeatureFieldBoost → Except String (List PbFeatureFieldBoost)
  | [] => .ok []
  | b :: bs =>
    match featureFieldBoostProto b with
    | .error msg => .error msg
    | .ok pb =>
      match featureFieldBoostsProto bs with
      | .error msg => .error msg
      | .ok pbs => .ok (pb :: pbs)

/-- The loop of `sorts.proto` (search.go).  The only Sort implementor in
the source is `SortByField` (a string), so a sort value is its string. -/
def sortsProto : List String → Except String (List PbSort)
  | [] => .ok []
  | s :: ss =>
    match sortByFieldProto s with
    | .error msg => .error msg
    | .ok x =>
      match sortsProto ss with
      | .error msg => .error msg
      | .ok xs => .ok (x :: xs)

/-- The loop of `aggregates.proto` (part_002); the Go map is carried as
an association list of (name, aggregate) pairs. -/
def aggregatesProto :
    List (String × GAggregate) → Except String (List (String × PbAggregate))
  | [] => .ok []
  | (name, a) :: as2 =>
    match aggregateProto a with
    | .error msg => .error msg
    | .ok pa =>
      match aggregatesProto as2 with
      | .error msg => .error msg
      | .ok pas => .ok ((name, pa) :: pas)

/-- Tracking configuration (search.go `Tracking`); the Go field `Type` is
named `trackingType` here. -/
structure Tracking where
  trackingType : TrackingType
  queryID : String
  sequence : Int
  field : String
  data : List (String × String)
  deriving DecidableEq

/-- Wire tracking message (`pb.SearchRequest_Tracking`). -/
structure PbTracking where
  ttype : PbTrackingType
  queryId : String
  sequence : Int
  field : String
  data : List (String × String)
  deriving DecidableEq

/-- Embedding of `Tracking.proto` (search.go): fails only through the
tracking type; Sequence passes through Go `int32`. -/
def Tracking.proto (t : Tracking) : Except String PbTracking :=
  match trackingTypeProto t.trackingType with
  | .error msg => .error msg
  | .ok pbType => .ok ⟨pbType, t.queryID, toInt32 t.sequence, t.field, t.data⟩

/-- An index query (search.go `IndexQuery`). -/
structure IndexQuery where
  text : String
  body : List Body
  terms : List Term
  fieldBoosts : List FieldBoostV
  instanceBoosts : List InstanceBoostV

/-- Wire index query (`querypb.SearchRequest_IndexQuery`). -/
structure PbIndexQuery where
  body : List PbBody
  terms : List PbTerm
  fieldBoosts : List PbFieldBoost
  instanceBoosts : List PbInstanceBoost

/-- Embedding of `IndexQuery.proto` (search.go): a non-empty Text is
appended to Body with weight 1.0, then bodies and terms are marshalled
(never failing) and the two boost families marshalled (field boosts may
fail through their filters).  Go checks `Terms`/`FieldBoosts`/
`InstanceBoosts` for nil only to skip setting wire fields; with lists the
empty case marshals to the same empty wire field, so no failure path
changes. -/
def IndexQuery.proto (q : IndexQuery) : Except String PbIndexQuery :=
  let wb := if q.text ≠ "" then q.body ++ [⟨q.text, 1⟩] else q.body
  match fieldBoostsProto q.fieldBoosts with
  | .error msg => .error msg
  | .ok metaBoosts =>
    match instanceBoostsProto q.instanceBoosts with
    | .error msg => .error msg
    | .ok indexBoosts =>
      .ok ⟨wb.map Body.proto, q.terms.map Term.proto, metaBoosts, indexBoosts⟩

/-- A feature query (search.go `FeatureQuery`). -/
structure FeatureQuery where
  fieldBoosts : List FeatureFieldBoost

/-- Wire feature query (`querypb.SearchRequest_FeatureQuery`). -/
structure PbFeatureQuery where
  fieldBoosts : List PbFeatureFieldBoost

/-- Embedding of `FeatureQuery.proto` (search.go). -/
def FeatureQuery.proto (q : FeatureQuery) : Except String PbFeatureQuery :=
  match featureFieldBoostsProto q.fieldBoosts with
  | .error msg => .error msg
  | .ok afbs => .ok ⟨afbs⟩

/-- The nil check on `r.Filter` in `Request.proto` (search.go): a nil
filter is skipped, a present one is serialized. -/
def filterOptProto : Option GFilter → Except String (Option PbFilter)
  | none => .ok none
  | some f =>
    match protoFilter f with
    | .error msg => .error msg
    | .ok pf => .ok (some pf)

/-- A search request (search.go `Request`).  The Sort interface has a
single implementor (`SortByField`), so sorts are its strings; the
Aggregates map is an association list. -/
structure Request where
  tracking : Tracking
  filter : Option GFilter
  indexQuery : IndexQuery
  featureQuery : FeatureQuery
  offset : Int
  limit : Int
  sort : List String
  fields : List String
  aggregates : List (String × GAggregate)
  transforms : List String

/-- Wire engine search request (`querypb.SearchRequest`). -/
structure PbSearchRequest where
  offset : Int
  limit : Int
  fields : List String
  indexQuery : PbIndexQuery
  featureQuery : PbFeatureQuery
  filter : Option PbFilter
  sort : List PbSort
  aggregates : List (String × PbAggregate)
  transforms : List String

/-- Wire API search request (`pb.SearchRequest`): tracking plus the
engine request. -/
structure PbApiSearchRequest where
  tracking : PbTracking
  searchRequest : PbSearchRequest

/-- Embedding of `Request.proto` (search.go), in source order: index
query, feature query, filter, sorts, aggregates, transforms (never
failing) and tracking, aborting on the first failure.  The nil checks on
`Sort`/`Aggregates`/`Transforms` only skip setting wire fields and
change no failure path. -/
def Request.protoReq (r : Request) : Except String PbApiSearchRequest :=
  match r.indexQuery.proto with
  | .error msg => .error msg
  | .ok iq =>
    match r.featureQuery.proto with
    | .error msg => .error msg
    | .ok fq =>
      match filterOptProto r.filter with
      | .error msg => .error msg
      | .ok pbf =>
        match sortsProto r.sort with
        | .error msg => .error msg
        | .ok sts =>
          match aggregatesProto r.aggregates with
          | .error msg => .error msg
          | .ok ags =>
            match r.tracking.proto with
            | .error msg => .error msg
            | .ok ptr =>
              .ok ⟨ptr, ⟨toInt32 r.offset, toInt32 r.limit, r.fields,
                iq, fq, pbf, sts, ags, r.transforms⟩⟩

/-- One record's terms in an Analyse response (`querypb` Terms entry). -/
structure PbTermsList where
  terms : List String
  deriving DecidableEq

/-- Response of the Analyse RPC: per-record term lists plus per-item
statuses. -/
structure AnalyseResponse where
  terms : List PbTermsList
  status : List Status
  deriving DecidableEq

/-- Embedding of `Query.AnalyseMulti` (part_005): the request is
marshalled first, then the keys, both locally — a failure in either
aborts with no remote call — and only then is the Analyse RPC issued.
The first component records the remote calls issued. -/
def Query.AnalyseMulti (ks : List (Option Key)) (r : Request)
    (analyseResp : Except ItemErr AnalyseResponse) :
    List RemoteCall × Option (List (List String)) × Option SajErr :=
  match r.protoReq with
  | .error msg => ([], none, some (.simple msg))
  | .ok _ =>
    match keysProto ks with
    | .error msg => ([], none, some (.simple msg))
    | .ok _ =>
      match analyseResp with
      | .error e => ([.analyse], none, some (.item e))
      | .ok resp =>
        ([.analyse], some (resp.terms.map (fun ts => ts.terms)),
          multiErrorFromRecordStatusProto resp.status)

/-- Embedding of `Client.LearnMulti` (part_003): the batch-length check
runs before anything else; then `AnalyseMulti` (which marshals the
request and keys locally before its RPC), then the keys are marshalled
again locally, then the Increment RPC.  The analysed terms, counts and
scores are packaged into the Increment request, which the response
oracle absorbs.  The first component accumulates the remote calls
issued, in order. -/
def Client.LearnMulti (ks : List (Option Key)) (r : Request)
    (counts : List Int) (scores : List Rat)
    (analyseResp : Except ItemErr AnalyseResponse)
    (incResp : Except ItemErr (List Status)) :
    List RemoteCall × Option SajErr :=
  if ks.length ≠ counts.length ∨ ks.length ≠ scores.length then
    ([], some (.simple ("number of keys, counts and scores do not match")))
  else
    match Query.AnalyseMulti ks r analyseResp with
    | (calls, _, some e) => (calls, some e)
    | (calls, _, none) =>
      match keysProto ks with
      | .error msg => (calls, some (.simple msg))
      | .ok _ =>
        match incResp with
        | .error e => (calls ++ [.increment], some (.item e))
        | .ok sts => (calls ++ [.increment], multiErrorFromRecordStatusProto sts)

/-- The string-typed representation promised by the spec for an
encode-decode round trip: a scalar becomes its formatted string (a time
value its Unix-seconds string), a list the ordered list of formatted
element strings.  Stated from the claim wording, for comparison with the
composition of the source-translated encoder and decoder. -/
def stringTypedRepr : GoVal → GoVal
  | .goString s => .goString s
  | .goBool b => .goString (GoVal.format (.goBool b))
  | .goInt n => .goString (toString n)
  | .goFloat q => .goString (toString q)
  | .goTime u => .goString (toString u)
  | .goStringList xs => .goStringList xs
  | .goIntList xs => .goStringList (xs.map (fun v => toString v))
  | .goInt64List xs => .goStringList (xs.map (fun v => toString v))
  | .goOther t => .goOther t

/-! Helper lemmas about the embedded operations. -/

/-- Looking up the key just set by `mapSet` yields the new value. -/
theorem mapGet_mapSet_self (m : Rec) (k : String) (v : GoVal) :
    mapGet (mapSet m k v) k = some v := by
  induction m with
  | nil => simp [mapSet, mapGet]
  | cons p rest ih =>
    by_cases h : p.1 = k
    · simp [mapSet, h, mapGet]
    · simp [mapSet, h, mapGet, ih]

/-- Looking up any other key after `mapSet` is unchanged. -/
theorem mapGet_mapSet_ne (m : Rec) (k k₂ : String) (v : GoVal)
    (h : k₂ ≠ k) : mapGet (mapSet m k v) k₂ = mapGet m k₂ := by
  induction m with
  | nil =>
    have hk2 : ¬k = k₂ := fun e => h e.symm
    simp [mapSet, mapGet, hk2]
  | cons p rest ih =>
    by_cases hp : p.1 = k
    · have hk2 : ¬k = k₂ := fun e => h e.symm
      simp [mapSet, hp, mapGet, hk2]
    · simp [mapSet, hp, mapGet, ih]

/-- Indexing a list whose entries are all `none` with default `none`. -/
theorem getD_all_none (l : List (Option ItemErr))
    (h : ∀ x ∈ l, x = none) (j : Nat) : l.getD j none = none := by
  induction l generalizing j with
  | nil => simp [List.getD]
  | cons x xs ih =>
    cases j with
    | zero => simpa using h x (by simp)
    | succ j =>
      rw [List.getD_cons_succ]
      exact ih (fun y hy => h y (by simp [hy])) j

/-- Indexing around the unique non-nil entry of an error list. -/
theorem getD_one_some (xs ys : List (Option ItemErr)) (e : ItemErr)
    (hx : ∀ x ∈ xs, x = none) (hy : ∀ y ∈ ys, y = none) :
    (xs ++ some e :: ys).getD xs.length none = some e ∧
    ∀ j, j ≠ xs.length → (xs ++ some e :: ys).getD j none = none := by
  induction xs with
  | nil =>
    refine ⟨by simp, fun j hj => ?_⟩
    cases j with
    | zero => exact absurd rfl hj
    | succ j =>
      simp only [List.nil_append, List.getD_cons_succ]
      exact getD_all_none ys hy j
  | cons x xs ih =>
    have hx0 : x = none := hx x (by simp)
    have ih2 := ih (fun y hy2 => hx y (by simp [hy2]))
    constructor
    · simpa [List.cons_append, List.getD_cons_succ] using ih2.1
    · intro j hj
      cases j with
      | zero => simp [List.cons_append, hx0]
      | succ j =>
        rw [List.cons_append, List.getD_cons_succ]
        exact ih2.2 j (by simpa using hj)

/-- An OK status carries no error. -/
theorem statusErr_eq_none (s : Status) (h : s.code = 0) :
    statusErr s = none := by
  simp [statusErr, h]

/-- A NotFound status carries `ErrNoSuchRecord`. -/
theorem statusErr_notFound (s : Status) (h : s.code = 5) :
    statusErr s = some .noSuchRecord := by
  simp [statusErr, h]

/-- All-OK statuses produce a nil aggregate error. -/
theorem multiErr_allOk (sts : List Status) (h : ∀ s ∈ sts, s.code = 0) :
    multiErrorFromRecordStatusProto sts = none := by
  simp only [multiErrorFromRecordStatusProto]
  rw [if_pos]
  rw [List.all_eq_true]
  intro e he
  obtain ⟨s, hs, rfl⟩ := List.mem_map.mp he
  simp [statusErr_eq_none s (h s hs)]

/-- Statuses that are all OK except a NotFound produce the positional
MultiError with `ErrNoSuchRecord` in the corresponding slot. -/
theorem multiErr_decomp (a b : List Status) (nf : Status)
    (h5 : nf.code = 5) :
    multiErrorFromRecordStatusProto (a ++ nf :: b) =
      some (.multi (a.map statusErr ++
        some ItemErr.noSuchRecord :: b.map statusErr)) := by
  have hmap : (a ++ nf :: b).map statusErr =
      a.map statusErr ++ some ItemErr.noSuchRecord :: b.map statusErr := by
    simp [List.map_append, statusErr_notFound nf h5]
  simp only [multiErrorFromRecordStatusProto, hmap]
  rw [if_neg]
  intro hall
  rw [List.all_eq_true] at hall
  have := hall (some .noSuchRecord) (by simp)
  simp at this

/-- Decoding a list of wire records preserves its length. -/
theorem pbRecordsToRecords_length (recs : List PbRec) (docs : List Rec)
    (h : pbRecordsToRecords recs = .ok docs) : docs.length = recs.length := by
  induction recs generalizing docs with
  | nil =>
    simp only [pbRecordsToRecords] at h
    cases h
    rfl
  | cons r rs ih =>
    simp only [pbRecordsToRecords] at h
    cases hr : recordFromProto r with
    | error m => rw [hr] at h; cases h
    | ok d =>
      rw [hr] at h
      cases hrs : pbRecordsToRecords rs with
      | error m => rw [hrs] at h; cases h
      | ok ds =>
        rw [hrs] at h
        cases h
        simp [ih ds hrs]

/-- The `empty` flag of the ExistsMulti status loop is set exactly when
every status is OK or NotFound. -/
theorem existsLoop_empty_iff (sts : List Status) :
    (existsLoop sts).2.2 = true ↔ ∀ s ∈ sts, s.code = 0 ∨ s.code = 5 := by
  induction sts with
  | nil => simp [existsLoop]
  | cons s rest ih =>
    by_cases h0 : s.code = 0
    · simp [existsLoop, h0, ih]
    · by_cases h5 : s.code = 5
      · simp [existsLoop, h0, h5, ih]
      · have hfalse : (existsLoop (s :: rest)).2.2 = false := by
          simp [existsLoop, h0, h5]
        rw [hfalse]
        simp only [Bool.false_eq_true, false_iff]
        intro hall
        exact absurd (hall s (by simp)) (by simp [h0, h5])

/-- When every status is OK or NotFound, the ExistsMulti loop returns one
boolean per status: true for OK, false for NotFound. -/
theorem existsLoop_out (sts : List Status)
    (h : ∀ s ∈ sts, s.code = 0 ∨ s.code = 5) :
    (existsLoop sts).1 = sts.map (fun s => decide (s.code = 0)) := by
  induction sts with
  | nil => simp [existsLoop]
  | cons s rest ih =>
    have hs := h s (by simp)
    have hr := ih (fun x hx => h x (by simp [hx]))
    rcases hs with h0 | h5
    · simp [existsLoop, h0, hr]
    · have h0 : ¬s.code = 0 := by simp [h5]
      simp [existsLoop, h0, h5, hr]

/-- An operator string outside the ten supported ones falls to the
default case of the operator switch. -/
theorem fieldOpProto_invalid (op : String) (h : op ∉ validFieldOps) :
    fieldOpProto op = .error (("invalid field filter operator: ") ++ op) := by
  simp only [validFieldOps, List.mem_cons, List.mem_singleton, not_or] at h
  obtain ⟨h1, h2, h3, h4, h5, h6, h7, h8, h9, h10⟩ := h
  simp [fieldOpProto, h1, h2, h3, h4, h5, h6, h7, h8, h9, h10]

/-- The operator switch succeeds exactly on the ten supported operator
strings. -/
theorem fieldOpProto_ok_iff (op : String) :
    (∃ w, fieldOpProto op = .ok w) ↔ op ∈ validFieldOps := by
  by_cases h : op ∈ validFieldOps
  · simp only [h, iff_true]
    simp only [validFieldOps, List.mem_cons, List.not_mem_nil, or_false] at h
    rcases h with rfl | rfl | rfl | rfl | rfl | rfl | rfl | rfl | rfl | rfl <;>
      exact ⟨_, rfl⟩
  · rw [fieldOpProto_invalid op h]
    simp [h]

/-- Value marshalling succeeds exactly on the supported value shapes. -/
theorem pbValueFromInterface_ok_iff (v : GoVal) :
    (∃ w, pbValueFromInterface v = .ok w) ↔ supportedVal v = true := by
  cases v <;> simp [pbValueFromInterface, supportedVal]

/-- The combinator operator switch succeeds exactly on the four enum
values. -/
theorem combOpProto_ok_iff (op : Int) :
    (∃ w, combOpProto op = .ok w) ↔ (op = 0 ∨ op = 1 ∨ op = 2 ∨ op = 3) := by
  unfold combOpProto
  split_ifs <;> simp_all

/-- The geo region switch succeeds exactly on the two enum values. -/
theorem geoRegionProto_ok_iff (r : Int) :
    (∃ w, geoRegionProto r = .ok w) ↔ (r = 0 ∨ r = 1) := by
  unfold geoRegionProto
  split_ifs <;> simp_all

mutual

/-- Filter serialization succeeds exactly on valid constructor inputs:
known operator strings, supported values, known enum values, recursively
in combinator children. -/
theorem protoFilter_ok_iff (f : GFilter) :
    (∃ w, protoFilter f = .ok w) ↔ filterValid f = true := by
  cases f with
  | fieldF op field v =>
    simp only [protoFilter, filterValid, Bool.and_eq_true, decide_eq_true_eq]
    constructor
    · rintro ⟨w, hw⟩
      cases hop : fieldOpProto op with
      | error m => rw [hop] at hw; cases hw
      | ok pop =>
        rw [hop] at hw
        cases hv : pbValueFromInterface v with
        | error m => rw [hv] at hw; cases hw
        | ok pv =>
          exact ⟨(fieldOpProto_ok_iff op).mp ⟨pop, hop⟩,
            (pbValueFromInterface_ok_iff v).mp ⟨pv, hv⟩⟩
    · rintro ⟨h1, h2⟩
      obtain ⟨pop, hop⟩ := (fieldOpProto_ok_iff op).mpr h1
      obtain ⟨pv, hv⟩ := (pbValueFromInterface_ok_iff v).mpr h2
      exact ⟨_, by rw [hop, hv]⟩
  | comb op fs =>
    have ih := protoFilterList_ok_iff fs
    simp only [protoFilter, filterValid, Bool.and_eq_true, Bool.or_eq_true,
      decide_eq_true_eq]
    constructor
    · rintro ⟨w, hw⟩
      cases hop : combOpProto op with
      | error m => rw [hop] at hw; cases hw
      | ok pop =>
        rw [hop] at hw
        cases hfs : protoFilterList fs with
        | error m => rw [hfs] at hw; cases hw
        | ok ws =>
          have h1 := (combOpProto_ok_iff op).mp ⟨pop, hop⟩
          exact ⟨by tauto, ih.mp ⟨ws, hfs⟩⟩
    · rintro ⟨h1, h2⟩
      obtain ⟨pop, hop⟩ := (combOpProto_ok_iff op).mpr (by tauto)
      obtain ⟨ws, hfs⟩ := ih.mpr h2
      exact ⟨_, by rw [hop, hfs]⟩
  | geo fieldLat fieldLng lat lng radius region =>
    simp only [protoFilter, filterValid, Bool.or_eq_true, decide_eq_true_eq]
    constructor
    · rintro ⟨w, hw⟩
      cases hr : geoRegionProto region with
      | error m => rw [hr] at hw; cases hw
      | ok preg => exact (geoRegionProto_ok_iff region).mp ⟨preg, hr⟩
    · intro h
      obtain ⟨preg, hr⟩ := (geoRegionProto_ok_iff region).mpr h
      exact ⟨_, by rw [hr]⟩

/-- Serialization of a filter list succeeds exactly when every filter is
valid. -/
theorem protoFilterList_ok_iff (fs : List GFilter) :
    (∃ ws, protoFilterList fs = .ok ws) ↔ filterListValid fs = true := by
  cases fs with
  | nil => simp [protoFilterList, filterListValid]
  | cons f fs =>
    have ih1 := protoFilter_ok_iff f
    have ih2 := protoFilterList_ok_iff fs
    simp only [protoFilterList, filterListValid, Bool.and_eq_true]
    constructor
    · rintro ⟨ws, hws⟩
      cases hf : protoFilter f with
      | error m => rw [hf] at hws; cases hws
      | ok w =>
        rw [hf] at hws
        cases hfs : protoFilterList fs with
        | error m => rw [hfs] at hws; cases hws
        | ok ws2 => exact ⟨ih1.mp ⟨w, hf⟩, ih2.mp ⟨ws2, hfs⟩⟩
    · rintro ⟨h1, h2⟩
      obtain ⟨w, hf⟩ := ih1.mpr h1
      obtain ⟨ws2, hfs⟩ := ih2.mpr h2
      exact ⟨_, by rw [hf, hfs]⟩

end

/-- Bucket serialization succeeds exactly when every bucket filter is
valid. -/
theorem bucketsProto_ok_iff (bs : List (String × GFilter)) :
    (∃ ws, bucketsProto bs = .ok ws) ↔ bs.all (fun b => filterValid b.2) := by
  induction bs with
  | nil => simp [bucketsProto]
  | cons b bs ih =>
    obtain ⟨name, f⟩ := b
    simp only [bucketsProto, List.all_cons, Bool.and_eq_true]
    constructor
    · rintro ⟨ws, hws⟩
      cases hf : protoFilter f with
      | error m => rw [hf] at hws; cases hws
      | ok w =>
        rw [hf] at hws
        cases hbs : bucketsProto bs with
        | error m => rw [hbs] at hws; cases hws
        | ok ws2 => exact ⟨(protoFilter_ok_iff f).mp ⟨w, hf⟩, ih.mp ⟨ws2, hbs⟩⟩
    · rintro ⟨h1, h2⟩
      obtain ⟨w, hf⟩ := (protoFilter_ok_iff f).mpr h1
      obtain ⟨ws2, hbs⟩ := ih.mpr h2
      exact ⟨_, by rw [hf, hbs]⟩

/-! Claim theorems. -/

/-- C10: for every body string and values map, NewRecord maps the
reserved field `_body` to the body string, overwriting any `_body` entry
the caller supplied, and maps every other key to its original value. -/
theorem c10_newRecord_body (body : String) (values : Rec) :
    mapGet (NewRecord body values) BodyField = some (.goString body) ∧
    ∀ k, k ≠ BodyField → mapGet (NewRecord body values) k = mapGet values k :=
  ⟨mapGet_mapSet_self values BodyField _,
   fun k hk => mapGet_mapSet_ne values BodyField k _ hk⟩

/-- Witness for C10 at a values map that itself binds `_body`. -/
theorem c10_newRecord_body_witness :
    mapGet (NewRecord ("hello") [(BodyField, .goInt 3), (("x"), .goBool true)])
        BodyField = some (.goString ("hello")) ∧
    mapGet (NewRecord ("hello") [(BodyField, .goInt 3), (("x"), .goBool true)])
        ("x") =
      mapGet [(BodyField, .goInt 3), (("x"), .goBool true)] ("x") :=
  ⟨(c10_newRecord_body ("hello") [(BodyField, .goInt 3), (("x"), .goBool true)]).1,
   (c10_newRecord_body ("hello") [(BodyField, .goInt 3), (("x"), .goBool true)]).2
     ("x") (by decide)⟩

/-- C8 (code observation): the aggregate error string is "(0 errors)"
with no errors, the first message with one, and the first message plus
" (and 1 other error)" with two; but with three non-nil errors the
default branch prints the total count (3) instead of the count minus one,
contradicting the claim's N = count - 1. -/
theorem c8_multiError_message :
    MultiError.Error [] = ("(0 errors)") ∧
    MultiError.Error [some .noSuchRecord, none] = ("sajari: no such record") ∧
    MultiError.Error [some .noSuchRecord, some .noSuchRecord] =
      ("sajari: no such record (and 1 other error)") ∧
    MultiError.Error [some .noSuchRecord, some .noSuchRecord, some .noSuchRecord] =
      ("sajari: no such record (and 3 other errors)") :=
  ⟨rfl, rfl, rfl, rfl⟩

/-- C9: LearnMulti with mismatched batch lengths returns the local
validation error immediately, with no remote calls issued and nothing
else attempted; and the batch-length precondition is the only local
length check: with matching lengths the call never produces the
length-mismatch error -- the remaining local aborts are the request and
key marshalling failures inside AnalyseMulti (each returning its own
marshalling error with no remote call), and when those marshal
successfully the Analyse RPC is the first call attempted. -/
theorem c9_learnMulti_lengthCheck :
    (∀ (ks : List (Option Key)) (r : Request) (counts : List Int)
       (scores : List Rat) (ar : Except ItemErr AnalyseResponse)
       (ir : Except ItemErr (List Status)),
      (ks.length ≠ counts.length ∨ ks.length ≠ scores.length) →
      Client.LearnMulti ks r counts scores ar ir =
        ([], some (.simple ("number of keys, counts and scores do not match")))) ∧
    (∀ (ks : List (Option Key)) (r : Request) (counts : List Int)
       (scores : List Rat) (ar : Except ItemErr AnalyseResponse)
       (ir : Except ItemErr (List Status)) (msg : String),
      ks.length = counts.length → ks.length = scores.length →
      Request.protoReq r = .error msg →
      Client.LearnMulti ks r counts scores ar ir =
        ([], some (.simple msg))) ∧
    (∀ (ks : List (Option Key)) (r : Request) (counts : List Int)
       (scores : List Rat) (ar : Except ItemErr AnalyseResponse)
       (ir : Except ItemErr (List Status)) (pr : PbApiSearchRequest)
       (msg : String),
      ks.length = counts.length → ks.length = scores.length →
      Request.protoReq r = .ok pr → keysProto ks = .error msg →
      Client.LearnMulti ks r counts scores ar ir =
        ([], some (.simple msg))) ∧
    (∀ (ks : List (Option Key)) (r : Request) (counts : List Int)
       (scores : List Rat) (ar : Except ItemErr AnalyseResponse)
       (ir : Except ItemErr (List Status)) (pr : PbApiSearchRequest)
       (pbks : List PbKey),
      ks.length = counts.length → ks.length = scores.length →
      Request.protoReq r = .ok pr → keysProto ks = .ok pbks →
      (Client.LearnMulti ks r counts scores ar ir).1.head? =
        some .analyse) := by
  refine ⟨?_, ?_, ?_, ?_⟩
  · intro ks r counts scores ar ir h
    simp only [Client.LearnMulti, if_pos h]
  · intro ks r counts scores ar ir msg h1 h2 hreq
    simp only [Client.LearnMulti]
    rw [if_neg (by push_neg; exact ⟨h1, h2⟩)]
    simp [Query.AnalyseMulti, hreq]
  · intro ks r counts scores ar ir pr msg h1 h2 hreq hks
    simp only [Client.LearnMulti]
    rw [if_neg (by push_neg; exact ⟨h1, h2⟩)]
    simp [Query.AnalyseMulti, hreq, hks]
  · intro ks r counts scores ar ir pr pbks h1 h2 hreq hks
    simp only [Client.LearnMulti]
    rw [if_neg (by push_neg; exact ⟨h1, h2⟩)]
    cases ar with
    | error e => simp [Query.AnalyseMulti, hreq, hks]
    | ok resp =>
      cases hm : multiErrorFromRecordStatusProto resp.status with
      | none => cases ir <;> simp [Query.AnalyseMulti, hreq, hks, hm]
      | some e => simp [Query.AnalyseMulti, hreq, hks, hm]

/-- Witness for C9: a mismatched batch, a matching batch whose empty
request and keys marshal successfully (Analyse RPC attempted first), and
a matching batch whose request fails to marshal locally (no remote
call). -/
theorem c9_learnMulti_lengthCheck_witness :
    Client.LearnMulti [] ⟨⟨TrackingNone, "", 0, "", []⟩, none,
        ⟨"", [], [], [], []⟩, ⟨[]⟩, 0, 10, [], [], [], []⟩ [0] []
        (.ok ⟨[], []⟩) (.ok []) =
      ([], some (.simple ("number of keys, counts and scores do not match"))) ∧
    (Client.LearnMulti [] ⟨⟨TrackingNone, "", 0, "", []⟩, none,
        ⟨"", [], [], [], []⟩, ⟨[]⟩, 0, 10, [], [], [], []⟩ [] []
        (.ok ⟨[], []⟩) (.ok [])).1.head? = some .analyse ∧
    Client.LearnMulti [] ⟨⟨("BOGUS"), "", 0, "", []⟩, none,
        ⟨"", [], [], [], []⟩, ⟨[]⟩, 0, 10, [], [], [], []⟩ [] []
        (.ok ⟨[], []⟩) (.ok []) =
      ([], some (.simple ("unknown TrackingType: BOGUS"))) :=
  ⟨c9_learnMulti_lengthCheck.1 [] ⟨⟨TrackingNone, "", 0, "", []⟩, none,
      ⟨"", [], [], [], []⟩, ⟨[]⟩, 0, 10, [], [], [], []⟩ [0] []
      (.ok ⟨[], []⟩) (.ok []) (Or.inl (by decide)),
   c9_learnMulti_lengthCheck.2.2.2 [] ⟨⟨TrackingNone, "", 0, "", []⟩, none,
      ⟨"", [], [], [], []⟩, ⟨[]⟩, 0, 10, [], [], [], []⟩ [] []
      (.ok ⟨[], []⟩) (.ok []) _ [] rfl rfl rfl rfl,
   c9_learnMulti_lengthCheck.2.1 [] ⟨⟨("BOGUS"), "", 0, "", []⟩, none,
      ⟨"", [], [], [], []⟩, ⟨[]⟩, 0, 10, [], [], [], []⟩ [] []
      (.ok ⟨[], []⟩) (.ok []) ("unknown TrackingType: BOGUS") rfl rfl rfl⟩

/-- C3: FieldFilter "count >=" 10 serializes to a field filter on
"count" with operator GREATER_THAN_OR_EQUAL_TO (geOp) and single value
"10"; and every fieldOp whose trimmed trailing operator part is not one
of the ten supported operators serializes to the descriptive
invalid-operator error rather than defaulting. -/
theorem c3_fieldFilter_parse :
    (protoFilter (FieldFilter ("count >=") (.goInt 10)) =
      .ok (.fieldF ("count") .geOp (.single ("10")))) ∧
    (∀ (fieldOp : String) (v : GoVal),
      trimSpace (String.mk (fieldOp.data.drop
        (trimRightCutset fieldOp).data.length)) ∉ validFieldOps →
      protoFilter (FieldFilter fieldOp v) =
        .error (("invalid field filter operator: ") ++
          trimSpace (String.mk (fieldOp.data.drop
            (trimRightCutset fieldOp).data.length)))) := by
  refine ⟨rfl, ?_⟩
  intro fieldOp v h
  simp only [FieldFilter, protoFilter]
  rw [fieldOpProto_invalid _ h]

/-- Witness for C3 at an operator suffix "!!" outside the supported set. -/
theorem c3_fieldFilter_parse_witness :
    protoFilter (FieldFilter ("price !!") (.goInt 10)) =
      .error ("invalid field filter operator: !!") :=
  c3_fieldFilter_parse.2 ("price !!") (.goInt 10) (by decide)

/-- C4: every supported value shape encodes successfully and decodes back
to its string-typed representation; every unsupported shape fails with
the descriptive type error. -/
theorem c4_value_roundTrip :
    (∀ v : GoVal, supportedVal v = true →
      ∃ w, pbValueFromInterface v = .ok w ∧
        valueFromProto (some w) = .ok (stringTypedRepr v)) ∧
    (∀ t : String, pbValueFromInterface (.goOther t) =
      .error (("unsupported value: ") ++ t)) := by
  constructor
  · intro v hv
    cases v with
    | goOther t => exact absurd hv (by simp [supportedVal])
    | goString s => exact ⟨_, rfl, rfl⟩
    | goBool b => exact ⟨_, rfl, rfl⟩
    | goInt n => exact ⟨_, rfl, rfl⟩
    | goFloat q => exact ⟨_, rfl, rfl⟩
    | goTime u => exact ⟨_, rfl, rfl⟩
    | goStringList xs => exact ⟨_, rfl, rfl⟩
    | goIntList xs => exact ⟨_, rfl, rfl⟩
    | goInt64List xs => exact ⟨_, rfl, rfl⟩
  · intro t
    rfl

/-- Witness for C4 at an int scalar and a time value. -/
theorem c4_value_roundTrip_witness :
    (∃ w, pbValueFromInterface (.goInt 10) = .ok w ∧
      valueFromProto (some w) = .ok (stringTypedRepr (.goInt 10))) ∧
    (∃ w, pbValueFromInterface (.goTime 1500000000) = .ok w ∧
      valueFromProto (some w) = .ok (stringTypedRepr (.goTime 1500000000))) :=
  ⟨c4_value_roundTrip.1 (.goInt 10) (by decide),
   c4_value_roundTrip.1 (.goTime 1500000000) (by decide)⟩

/-- C7: serializing a combinator filter yields a combinator node carrying
its own operator and the serialized children; child serialization is
pointwise and order-preserving, so nested combinators keep the tree shape
with no flattening. -/
theorem c7_combinator_shape :
    (∀ (op : Int) (cop : CombOperator) (fs : List GFilter) (ws : List PbFilter),
      combOpProto op = .ok cop →
      protoFilterList fs = .ok ws →
      protoFilter (.comb op fs) = .ok (.combinator cop ws)) ∧
    (∀ (fs : List GFilter) (ws : List PbFilter),
      protoFilterList fs = .ok ws →
      ws.length = fs.length ∧
      ∀ i (h1 : i < fs.length) (h2 : i < ws.length),
        protoFilter (fs.get ⟨i, h1⟩) = .ok (ws.get ⟨i, h2⟩)) := by
  constructor
  · intro op cop fs ws hop hfs
    simp only [protoFilter]
    rw [hop, hfs]
  · intro fs
    induction fs with
    | nil =>
      intro ws h
      simp only [protoFilterList] at h
      cases h
      exact ⟨rfl, fun i h1 h2 => absurd h1 (by simp)⟩
    | cons f fs ih =>
      intro ws h
      simp only [protoFilterList] at h
      cases hf : protoFilter f with
      | error m => rw [hf] at h; cases h
      | ok w =>
        rw [hf] at h
        cases hfs : protoFilterList fs with
        | error m => rw [hfs] at h; cases h
        | ok ws2 =>
          rw [hfs] at h
          cases h
          obtain ⟨hlen, hpt⟩ := ih ws2 hfs
          refine ⟨by simp [hlen], ?_⟩
          intro i h1 h2
          cases i with
          | zero => simpa using hf
          | succ i =>
            simpa using hpt i (by simpa using h1) (by simpa using h2)

/-- Witness for C7 at the claim's example: an ALL filter containing an
ANY filter containing two field filters. -/
theorem c7_combinator_shape_witness :
    protoFilter (AllFilters [AnyFilter [FieldFilter ("a =") (.goString "x"),
        FieldFilter ("b >") (.goInt 2)]]) =
      .ok (.combinator .ALL [.combinator .ANY
        [.fieldF ("a") .eqOp (.single ("x")),
         .fieldF ("b") .gtOp (.single ("2"))]]) :=
  c7_combinator_shape.1 combFilterOpAll .ALL
    [AnyFilter [FieldFilter ("a =") (.goString "x"),
      FieldFilter ("b >") (.goInt 2)]]
    [.combinator .ANY [.fieldF ("a") .eqOp (.single ("x")),
      .fieldF ("b") .gtOp (.single ("2"))]] rfl rfl

/-- C5: each singular operation is the size-one batch of its Multi
counterpart: on success it returns the first element of the Multi result
(the first key for Add), and when the Multi call returns a MultiError it
returns exactly the entry at index 0 of that MultiError. -/
theorem c5_singular_is_multi_of_one :
    (∀ (r : Rec) (resp : Except ItemErr AddResponse)
       (k0 : Option Key) (ks : List (Option Key)),
      Client.AddMulti [r] resp = (some (k0 :: ks), none) →
      Client.Add r resp = (k0, none)) ∧
    (∀ (r : Rec) (resp : Except ItemErr AddResponse)
       (o : Option (List (Option Key))) (es : MultiError),
      Client.AddMulti [r] resp = (o, some (.multi es)) →
      Client.Add r resp = (none, (es.getD 0 none).map .item)) ∧
    (∀ (k : Option Key) (resp : Except ItemErr GetResponse)
       (d : Rec) (ds : List Rec),
      Client.GetMulti [k] resp = (some (d :: ds), none) →
      Client.Get k resp = (some d, none)) ∧
    (∀ (k : Option Key) (resp : Except ItemErr GetResponse)
       (o : Option (List Rec)) (es : MultiError),
      Client.GetMulti [k] resp = (o, some (.multi es)) →
      Client.Get k resp = (none, (es.getD 0 none).map .item)) ∧
    (∀ (k : Option Key) (resp : Except ItemErr (List Status))
       (b : Bool) (bs : List Bool),
      Client.ExistsMulti [k] resp = (some (b :: bs), none) →
      Client.Exists k resp = (b, none)) ∧
    (∀ (k : Option Key) (resp : Except ItemErr (List Status))
       (o : Option (List Bool)) (es : MultiError),
      Client.ExistsMulti [k] resp = (o, some (.multi es)) →
      Client.Exists k resp = (false, (es.getD 0 none).map .item)) ∧
    (∀ (k : Option Key) (resp : Except ItemErr (List Status)),
      Client.DeleteMulti [k] resp = none → Client.Delete k resp = none) ∧
    (∀ (k : Option Key) (resp : Except ItemErr (List Status)) (es : MultiError),
      Client.DeleteMulti [k] resp = some (.multi es) →
      Client.Delete k resp = (es.getD 0 none).map .item) := by
  refine ⟨?_, ?_, ?_, ?_, ?_, ?_, ?_, ?_⟩
  · intro r resp k0 ks h
    simp [Client.Add, h]
  · intro r resp o es h
    simp [Client.Add, h]
  · intro k resp d ds h
    simp [Client.Get, h]
  · intro k resp o es h
    simp [Client.Get, h]
  · intro k resp b bs h
    simp [Client.Exists, h]
  · intro k resp o es h
    simp [Client.Exists, h]
  · intro k resp h
    simp [Client.Delete, h]
  · intro k resp es h
    simp [Client.Delete, h]

/-- Witness for C5: a successful singleton Add and a not-found singleton
Get. -/
theorem c5_singular_is_multi_of_one_witness :
    Client.Add [(("title"), .goString "x")]
        (.ok ⟨[⟨("_id"), some (.single "1")⟩], [⟨0, ""⟩]⟩) =
      (some ⟨("_id"), .goString ("1")⟩, none) ∧
    Client.Get (some ⟨("_id"), .goString "a"⟩) (.ok ⟨[[]], [⟨5, ""⟩]⟩) =
      (none, some (.item .noSuchRecord)) :=
  ⟨c5_singular_is_multi_of_one.1 [(("title"), .goString "x")]
      (.ok ⟨[⟨("_id"), some (.single "1")⟩], [⟨0, ""⟩]⟩)
      (some ⟨("_id"), .goString ("1")⟩) [] rfl,
   c5_singular_is_multi_of_one.2.2.2.1 (some ⟨("_id"), .goString "a"⟩)
      (.ok ⟨[[]], [⟨5, ""⟩]⟩) (some [[]]) [some .noSuchRecord] rfl⟩

/-- C2 is false as stated: ExistsMulti discards its result list when a
per-item status is neither OK nor NotFound, although the remote call
succeeded: the slice comes back nil alongside the MultiError. -/
theorem c2_counterexample :
    Client.ExistsMulti [some ⟨("id"), .goString "a"⟩] (.ok [⟨13, ("boom")⟩]) =
      (none, some (.multi [some (.grpc 13 ("boom"))])) ∧
    (Client.ExistsMulti [some ⟨("id"), .goString "a"⟩]
      (.ok [⟨13, ("boom")⟩])).1 = none :=
  ⟨rfl, rfl⟩

/-- C2 (amended): AddMulti and GetMulti always return their result lists
alongside a per-item MultiError; ExistsMulti returns its boolean list
(true for OK, false for NotFound) with a nil error when every status is
OK or NotFound, and discards the result list (returns nil) when any other
per-item failure occurs. -/
theorem c2_partial_failure :
    (∀ (rs : List Rec) (resp : Except ItemErr AddResponse)
       (o : Option (List (Option Key))) (es : MultiError),
      Client.AddMulti rs resp = (o, some (.multi es)) → o.isSome = true) ∧
    (∀ (ks : List (Option Key)) (resp : Except ItemErr GetResponse)
       (o : Option (List Rec)) (es : MultiError),
      Client.GetMulti ks resp = (o, some (.multi es)) → o.isSome = true) ∧
    (∀ (ks : List (Option Key)) (pb : List PbKey) (sts : List Status),
      keysProto ks = .ok pb →
      (∀ s ∈ sts, s.code = 0 ∨ s.code = 5) →
      Client.ExistsMulti ks (.ok sts) =
        (some (sts.map (fun s => decide (s.code = 0))), none)) ∧
    (∀ (ks : List (Option Key)) (pb : List PbKey) (sts : List Status)
       (s : Status),
      keysProto ks = .ok pb → s ∈ sts → ¬(s.code = 0 ∨ s.code = 5) →
      (Client.ExistsMulti ks (.ok sts)).1 = none ∧
      ∃ es, (Client.ExistsMulti ks (.ok sts)).2 = some (.multi es)) := by
  refine ⟨?_, ?_, ?_, ?_⟩
  · intro rs resp o es h
    cases hr : recordsProto rs with
    | error m => simp [Client.AddMulti, hr] at h
    | ok x =>
      cases resp with
      | error e => simp [Client.AddMulti, hr] at h
      | ok r =>
        cases hk : pbKeysToKeys r.keys with
        | error m => simp [Client.AddMulti, hr, hk] at h
        | ok ks2 =>
          simp only [Client.AddMulti, hr, hk] at h
          have h1 := congrArg Prod.fst h
          simp only at h1
          rw [← h1]
          rfl
  · intro ks resp o es h
    cases hk : keysProto ks with
    | error m => simp [Client.GetMulti, hk] at h
    | ok pb =>
      cases resp with
      | error e => simp [Client.GetMulti, hk] at h
      | ok r =>
        cases hr : pbRecordsToRecords r.records with
        | error m => simp [Client.GetMulti, hk, hr] at h
        | ok docs =>
          simp only [Client.GetMulti, hk, hr] at h
          have h1 := congrArg Prod.fst h
          simp only at h1
          rw [← h1]
          rfl
  · intro ks pb sts hk hsts
    have he : (existsLoop sts).2.2 = true := (existsLoop_empty_iff sts).mpr hsts
    simp [Client.ExistsMulti, hk, he, existsLoop_out sts hsts]
  · intro ks pb sts s hk hs hbad
    have he : (existsLoop sts).2.2 = false := by
      cases hcase : (existsLoop sts).2.2 with
      | false => rfl
      | true => exact absurd ((existsLoop_empty_iff sts).mp hcase s hs) hbad
    constructor
    · simp [Client.ExistsMulti, hk, he]
    · exact ⟨(existsLoop sts).2.1, by simp [Client.ExistsMulti, hk, he]⟩

/-- Witness for C2 (amended): an ExistsMulti batch with one OK and one
NotFound keeps both results with a nil error. -/
theorem c2_partial_failure_witness :
    Client.ExistsMulti [some ⟨("id"), .goString "a"⟩]
        (.ok [⟨0, ""⟩, ⟨5, ""⟩]) = (some [true, false], none) :=
  (c2_partial_failure.2.2.1 [some ⟨("id"), .goString "a"⟩]
    [⟨("id"), some (.single "a")⟩] [⟨0, ""⟩, ⟨5, ""⟩] rfl
    (by decide)).trans (by decide)

/-- C1: GetMulti over a batch whose statuses are all OK except exactly
one NotFound returns the decoded N-length record list together with an
N-length MultiError whose only non-nil entry is ErrNoSuchRecord at the
not-found index; and with every status OK it returns a nil error. -/
theorem c1_getMulti_notFound :
    (∀ (ks : List (Option Key)) (pb : List PbKey) (a b : List Status)
       (nf : Status) (recs : List PbRec) (docs : List Rec),
      keysProto ks = .ok pb →
      pbRecordsToRecords recs = .ok docs →
      (∀ s ∈ a, s.code = 0) → nf.code = 5 → (∀ s ∈ b, s.code = 0) →
      recs.length = a.length + 1 + b.length →
      ∃ es, Client.GetMulti ks (.ok ⟨recs, a ++ nf :: b⟩) =
          (some docs, some (.multi es)) ∧
        docs.length = a.length + 1 + b.length ∧
        es.length = a.length + 1 + b.length ∧
        es.getD a.length none = some .noSuchRecord ∧
        (∀ j, j ≠ a.length → es.getD j none = none)) ∧
    (∀ (ks : List (Option Key)) (pb : List PbKey) (recs : List PbRec)
       (docs : List Rec) (sts : List Status),
      keysProto ks = .ok pb →
      pbRecordsToRecords recs = .ok docs →
      (∀ s ∈ sts, s.code = 0) →
      Client.GetMulti ks (.ok ⟨recs, sts⟩) = (some docs, none)) := by
  constructor
  · intro ks pb a b nf recs docs hk hr ha h5 hb hlen
    have hx : ∀ x ∈ a.map statusErr, x = none := by
      intro x hxm
      obtain ⟨s, hs, rfl⟩ := List.mem_map.mp hxm
      exact statusErr_eq_none s (ha s hs)
    have hy : ∀ y ∈ b.map statusErr, y = none := by
      intro y hym
      obtain ⟨s, hs, rfl⟩ := List.mem_map.mp hym
      exact statusErr_eq_none s (hb s hs)
    have hone := getD_one_some (a.map statusErr) (b.map statusErr)
      .noSuchRecord hx hy
    refine ⟨a.map statusErr ++ some ItemErr.noSuchRecord :: b.map statusErr,
      ?_, ?_, ?_, ?_, ?_⟩
    · simp only [Client.GetMulti, hk, hr]
      rw [multiErr_decomp a b nf h5]
    · rw [pbRecordsToRecords_length recs docs hr, hlen]
    · simp only [List.length_append, List.length_map, List.length_cons]
      omega
    · simpa [List.length_map] using hone.1
    · intro j hj
      exact hone.2 j (by simpa [List.length_map] using hj)
  · intro ks pb recs docs sts hk hr hsts
    simp only [Client.GetMulti, hk, hr]
    rw [multiErr_allOk sts hsts]

/-- Witness for C1 at a two-key batch whose second key is not found. -/
theorem c1_getMulti_notFound_witness :
    ∃ es, Client.GetMulti
        [some ⟨("_id"), .goString "a"⟩, some ⟨("_id"), .goString "b"⟩]
        (.ok ⟨[[(("t"), some (.single "x"))], []], [⟨0, ""⟩, ⟨5, ("nf")⟩]⟩) =
      (some [[(("t"), .goString "x")], []], some (.multi es)) ∧
      ([[(("t"), .goString "x")], []] : List Rec).length = 1 + 1 + 0 ∧
      es.length = 1 + 1 + 0 ∧
      es.getD 1 none = some .noSuchRecord ∧
      (∀ j, j ≠ 1 → es.getD j none = none) :=
  c1_getMulti_notFound.1
    [some ⟨("_id"), .goString "a"⟩, some ⟨("_id"), .goString "b"⟩]
    [⟨("_id"), some (.single "a")⟩, ⟨("_id"), some (.single "b")⟩]
    [⟨0, ""⟩] [] ⟨5, ("nf")⟩
    [[(("t"), some (.single "x"))], []]
    [[(("t"), .goString "x")], []]
    rfl rfl (by decide) rfl (by simp) rfl

/-- C6 is false as stated: a field filter whose operator is valid and
which involves no enum still fails to serialize when its value has an
unsupported shape, so invalid operators and invalid enums are not the
only failure causes. -/
theorem c6_counterexample :
    FieldFilter ("a =") (.goOther ("map[string]int")) =
      GFilter.fieldF ("=") ("a") (.goOther ("map[string]int")) ∧
    ("=") ∈ validFieldOps ∧
    protoFilter (FieldFilter ("a =") (.goOther ("map[string]int"))) =
      .error ("error marshalling value: unsupported value: map[string]int") :=
  ⟨rfl, by decide, rfl⟩

/-- C6 (amended): serialization of each query-model family is a pure
total function into `Except`, never a panic; it fails exactly on invalid
operator strings (field filters), invalid enum values (combinator, geo
region, tracking type), or unsupported field values in value marshalling;
and every value built from valid constructor inputs serializes
successfully. -/
theorem c6_serialization_failure_modes :
    (∀ f : GFilter, (∃ w, protoFilter f = .ok w) ↔ filterValid f = true) ∧
    (∀ t : TrackingType, (∃ w, trackingTypeProto t = .ok w) ↔
      (t = TrackingNone ∨ t = TrackingClick ∨ t = TrackingPosNeg)) ∧
    (∀ s : String, ∃ w, sortByFieldProto s = .ok w) ∧
    (∀ a : GAggregate, (∃ w, aggregateProto a = .ok w) ↔
      aggregateValid a = true) ∧
    (∀ b : FieldBoostV, (∃ w, fieldBoostProto b = .ok w) ↔
      fieldBoostValid b = true) ∧
    (∀ ib : InstanceBoostV, ∃ w, instanceBoostProto ib = .ok w) ∧
    (∀ v : GoVal, (∃ w, pbValueFromInterface v = .ok w) ↔
      supportedVal v = true) := by
  refine ⟨protoFilter_ok_iff, ?_, ?_, ?_, ?_, ?_, pbValueFromInterface_ok_iff⟩
  · intro t
    unfold trackingTypeProto
    split_ifs <;> simp_all
  · intro s
    unfold sortByFieldProto
    split_ifs <;> exact ⟨_, rfl⟩
  · intro a
    cases a with
    | count field => simp [aggregateProto, aggregateValid]
    | metric field ty => simp [aggregateProto, aggregateValid]
    | bucket bs =>
      simp only [aggregateProto, aggregateValid]
      constructor
      · rintro ⟨w, hw⟩
        cases hb : bucketsProto bs with
        | error m => rw [hb] at hw; cases hw
        | ok ws => exact (bucketsProto_ok_iff bs).mp ⟨ws, hb⟩
      · intro h
        obtain ⟨ws, hb⟩ := (bucketsProto_ok_iff bs).mpr h
        exact ⟨_, by rw [hb]⟩
  · intro b
    cases b with
    | filterB f value =>
      simp only [fieldBoostProto, fieldBoostValid]
      constructor
      · rintro ⟨w, hw⟩
        cases hf : protoFilter f with
        | error m => rw [hf] at hw; cases hw
        | ok pf => exact (protoFilter_ok_iff f).mp ⟨pf, hf⟩
      · intro h
        obtain ⟨pf, hf⟩ := (protoFilter_ok_iff f).mpr h
        exact ⟨_, by rw [hf]⟩
    | interval field points => simp [fieldBoostProto, fieldBoostValid]
    | element field elts => simp [fieldBoostProto, fieldBoostValid]
    | text field text => simp [fieldBoostProto, fieldBoostValid]
  · intro ib
    cases ib with
    | fieldIB field value => exact ⟨_, rfl⟩
    | scoreIB minCount threshold => exact ⟨_, rfl⟩

end Sajari
